import Mathlib

/-!
Shallow embedding of the asynchronous job-status orchestration layer of the
ai-synapse-ocr web client: the processing stage model rendered by
`OCRProcessingPage.jsx`, the job status poller `ocrService.pollStatus`, the
upload progress handler of `uploadService.uploadDocument` together with its
caller `useUpload.uploadDocument`, and the query orchestrator
`queryService.queryDocuments`.  Each definition is translated directly from
the JavaScript source; the theorems below settle the specification claims
against these definitions.
-/

namespace OCRProcessingPage

/-- The step table rendered by `OCRProcessingPage.jsx` (lines 132-137):
pairs of display name and the status value that activates the step. -/
def stageSteps : List (String × String) :=
  [("Preprocessing", "preprocessing"),
   ("OCR Text Extraction", "ocr_processing"),
   ("Table Detection", "table_extraction"),
   ("Embedding Generation", "embedding_generation"),
   ("Completed", "completed")]

/-- The literal array
`['preprocessing', 'ocr_processing', 'table_extraction', 'embedding_generation']`
used twice in the `isCompleted` expression (lines 141-142). -/
def nonTerminalStages : List String :=
  ["preprocessing", "ocr_processing", "table_extraction", "embedding_generation"]

/-- Index of the first occurrence of `x`, if any. -/
def findIndex (x : String) : List String → Option Nat
  | [] => none
  | y :: ys => if y == x then some 0 else (findIndex x ys).map (· + 1)

/-- JavaScript `Array.prototype.indexOf`: the index of the first occurrence,
or `-1` when the element is absent. -/
def jsIndexOf (xs : List String) (x : String) : Int :=
  match findIndex x xs with
  | some i => (i : Int)
  | none => -1

/-- One rendered step entry: display name plus the two boolean flags computed
per step in `OCRProcessingPage.jsx` (lines 139-142). -/
structure StageEntry where
  name : String
  isActive : Bool
  isCompleted : Bool
deriving Repr, DecidableEq

/-- Models `const isActive = status?.status === step.status;` (line 139).
The current status is `Option String`: `none` models a null `status` object,
for which the optional chain yields `undefined` (falsy). -/
def stageIsActive (st : Option String) (stepStatus : String) : Bool :=
  match st with
  | none => false
  | some s => s == stepStatus

/-- Models `const isCompleted = status?.status === 'completed' ||
(status && [...].indexOf(status.status) > [...].indexOf(step.status));`
(lines 140-142).  A null `status` makes the whole expression falsy. -/
def stageIsCompleted (st : Option String) (stepStatus : String) : Bool :=
  match st with
  | none => false
  | some s =>
    s == "completed" ||
      jsIndexOf nonTerminalStages s > jsIndexOf nonTerminalStages stepStatus

/-- The rendered stage list: `stageSteps.map` computing both flags for each
step, exactly as the `.map` callback in `OCRProcessingPage.jsx` does.  The
function is total by construction (evaluating it cannot throw). -/
def renderStages (st : Option String) : List StageEntry :=
  stageSteps.map (fun step =>
    { name := step.1
      isActive := stageIsActive st step.2
      isCompleted := stageIsCompleted st step.2 })

end OCRProcessingPage

namespace OcrService

variable {ε ι : Type}

/-- The terminal-status test of `ocrService.pollStatus` (line 105):
`status.status === 'completed' || status.status === 'failed'`. -/
def isTerminalStatus (s : String) : Bool :=
  s == "completed" || s == "failed"

/-- Observable events of one run of `ocrService.pollStatus`: a status fetch
(the awaited `getProcessingStatus`, succeeding with a job record or rejecting
with an error), an invocation of the `onUpdate` callback with a job record,
and a `setTimeout` wait of the given number of milliseconds. -/
inductive PollEvent (ε ι : Type) where
  | fetch : Except ε ι → PollEvent ε ι
  | callback : ι → PollEvent ε ι
  | wait : Nat → PollEvent ε ι

/-- The loop `ocrService.pollStatus` (lines 99-118), driven by the sequence of fetch
outcomes the network delivers.  Each cycle fetches the next outcome; when the
fetch rejects, the `catch` block rethrows the very same error (the callback is
not invoked for that fetch); when it succeeds, `onUpdate` is invoked with the
job, the loop returns the job if its status is terminal, and otherwise waits
`interval` milliseconds and recurses.  The value is the event trace paired
with the outcome: `some r` when the loop returned or rethrew within the given
outcomes, and `none` when it consumed them all and is still polling (the loop
has no other exit, so without a terminal status it never returns).
`getStatus` projects the `.status` field out of a job record. -/
def pollStatus (interval : Nat) (getStatus : ι → String) :
    List (Except ε ι) → List (PollEvent ε ι) × Option (Except ε ι)
  | [] => ([], none)
  | Except.error e :: _ =>
      ([PollEvent.fetch (Except.error e)], some (Except.error e))
  | Except.ok j :: rest =>
      if isTerminalStatus (getStatus j) then
        ([PollEvent.fetch (Except.ok j), PollEvent.callback j],
         some (Except.ok j))
      else
        let r := pollStatus interval getStatus rest
        (PollEvent.fetch (Except.ok j) :: PollEvent.callback j ::
           PollEvent.wait interval :: r.1, r.2)

/-- Whether an event is a fetch. -/
def isFetchEvent : PollEvent ε ι → Bool
  | PollEvent.fetch _ => true
  | _ => false

/-- Number of fetches in a trace. -/
def fetchCount (tr : List (PollEvent ε ι)) : Nat :=
  tr.countP isFetchEvent

/-- The jobs delivered to the callback, in trace order. -/
def callbackSeq (tr : List (PollEvent ε ι)) : List ι :=
  tr.filterMap fun e =>
    match e with
    | PollEvent.callback j => some j
    | _ => none

/-- The jobs successfully fetched, in trace order. -/
def fetchedOk (tr : List (PollEvent ε ι)) : List ι :=
  tr.filterMap fun e =>
    match e with
    | PollEvent.fetch (Except.ok j) => some j
    | _ => none

/-- Every fetch that follows another event is immediately preceded by a wait
of `interval` milliseconds; in particular no two fetches are back-to-back and
a wait of the interval occurs strictly between consecutive fetches. -/
def waitBeforeLaterFetches (interval : Nat) : List (PollEvent ε ι) → Bool
  | a :: b :: rest =>
      (match b, a with
       | PollEvent.fetch _, PollEvent.wait k => k == interval
       | PollEvent.fetch _, _ => false
       | _, _ => true) && waitBeforeLaterFetches interval (b :: rest)
  | _ => true

/-- The trace slice one non-terminal successful observation contributes. -/
def okBlock (interval : Nat) (j : ι) : List (PollEvent ε ι) :=
  [PollEvent.fetch (Except.ok j), PollEvent.callback j,
   PollEvent.wait interval]

end OcrService

namespace UploadService

/-- A JavaScript number as produced by the progress computation: NaN,
positive infinity, or a finite value.  Byte counts are nonnegative, so
negative infinity cannot arise in this expression. -/
inductive JSNum where
  | nan : JSNum
  | inf : JSNum
  | num : ℚ → JSNum
deriving DecidableEq

/-- JavaScript `Math.round`: for a finite value, the nearest integer rounding halves
toward positive infinity, i.e. `⌊x + 1/2⌋`; NaN and Infinity map to
themselves. -/
def jsMathRound : JSNum → JSNum
  | JSNum.nan => JSNum.nan
  | JSNum.inf => JSNum.inf
  | JSNum.num q => JSNum.num ((⌊q + 1 / 2⌋ : ℤ) : ℚ)

/-- JavaScript division of two nonnegative finite numbers: dividing by zero
yields NaN for a zero dividend and +Infinity for a positive one. -/
def jsDivNonneg (a b : ℚ) : JSNum :=
  if b = 0 then (if a = 0 then JSNum.nan else JSNum.inf)
  else JSNum.num (a / b)

/-- The progress handler of `uploadService.uploadDocument` (lines 50-55):
on each transport tick it computes
`Math.round((progressEvent.loaded * 100) / progressEvent.total)` — with no
guard on `total` — and passes the result to `onProgress`.  `loaded` and
`total` are byte counts (nonnegative integers). -/
def percentCompleted (loaded total : Nat) : JSNum :=
  jsMathRound (jsDivNonneg ((loaded : ℚ) * 100) (total : ℚ))

end UploadService

namespace UseUpload

/-- The sequence of values passed to `setProgress` during one successful run
of `useUpload.uploadDocument` (lines 9-21): `setProgress(0)` before the
transfer starts, one `setProgress(percent)` per transport tick through the
`onProgress` callback, and `setProgress(100)` forced by the caller only after
the upload promise resolves.  Each tick is a `(loaded, total)` pair of byte
counts. -/
def progressValues (ticks : List (Nat × Nat)) : List UploadService.JSNum :=
  UploadService.JSNum.num 0 ::
    (ticks.map fun p => UploadService.percentCompleted p.1 p.2) ++
      [UploadService.JSNum.num 100]

end UseUpload

namespace QueryService

/-- The POST request `queryService.queryDocuments` issues (lines 122-129):
URL `/query/` and a JSON body of the fields query, document_ids and top_k, where
`document_ids` is `null` (`none`) when no restriction is supplied. -/
structure QueryRequest where
  url : String
  query : String
  document_ids : Option (List String)
  top_k : Nat
deriving Repr, DecidableEq

/-- An HTTP response as the axios transport returns it; `data` is the parsed
body. -/
structure HttpResponse (α : Type) where
  data : α

/-- The orchestrator `queryService.queryDocuments` (lines 122-129) with the transport client
`post` made an explicit dependency: it builds the body from `query`,
`documentIds` (`null` in the source when absent) and `topK`, issues the
single POST, and resolves with `response.data` unmodified.  The first
component lists the requests issued, in order. -/
def queryDocuments {α : Type} (post : QueryRequest → HttpResponse α)
    (query : String) (documentIds : Option (List String)) (topK : Nat) :
    List QueryRequest × α :=
  ([QueryRequest.mk "/query/" query documentIds topK],
   (post (QueryRequest.mk "/query/" query documentIds topK)).data)

end QueryService

open OCRProcessingPage OcrService UploadService UseUpload QueryService

/-- C1 (counterexample): the claim asserts that for status `table_extraction`
the rendered list reports both flags false for the `completed` stage; the code
disagrees, because `indexOf` returns `-1` for `'completed'` in the four-element
array, and `2 > -1`, so the `Completed` entry gets `isCompleted = true`. -/
theorem stage_model_table_extraction_claim_false :
    ¬ (renderStages (some "table_extraction") =
      [⟨"Preprocessing", false, true⟩,
       ⟨"OCR Text Extraction", false, true⟩,
       ⟨"Table Detection", true, false⟩,
       ⟨"Embedding Generation", false, false⟩,
       ⟨"Completed", false, false⟩]) := by decide

/-- C1 (amended): for status `table_extraction`, the stages `preprocessing`
and `ocr_processing` report `isCompleted = true`, `table_extraction` reports
`isActive = true` and `isCompleted = false`, `embedding_generation` reports
both flags false, and the `completed` stage reports `isActive = false` but
`isCompleted = true` (its index in the non-terminal array is `-1`, which is
exceeded by the current status index). -/
theorem stage_model_table_extraction :
    renderStages (some "table_extraction") =
      [⟨"Preprocessing", false, true⟩,
       ⟨"OCR Text Extraction", false, true⟩,
       ⟨"Table Detection", true, false⟩,
       ⟨"Embedding Generation", false, false⟩,
       ⟨"Completed", false, true⟩] := by decide

/-- C7: for status `failed`, evaluating the stage list is total (the model is
a total function by construction) and every entry, including the `Completed`
one, reports `isActive = false` and `isCompleted = false`. -/
theorem stage_model_failed :
    renderStages (some "failed") =
      [⟨"Preprocessing", false, false⟩,
       ⟨"OCR Text Extraction", false, false⟩,
       ⟨"Table Detection", false, false⟩,
       ⟨"Embedding Generation", false, false⟩,
       ⟨"Completed", false, false⟩] := by decide

theorem findIndex_eq_none_of_not_mem {x : String} :
    ∀ {xs : List String}, x ∉ xs → findIndex x xs = none := by
  intro xs h
  induction xs with
  | nil => rfl
  | cons y ys ih =>
    rw [List.mem_cons, not_or] at h
    simp [findIndex, ih h.2, beq_eq_false_iff_ne, Ne.symm h.1]

/-- C9: for a current status that is neither `completed` nor one of the four
non-terminal stage values (for example `uploaded`), its `indexOf` in the
non-terminal array is `-1`, which is never strictly greater than any step's
index, so every rendered entry reports `isActive = false` and
`isCompleted = false`, and evaluation is total. -/
theorem stage_model_other_status (s : String)
    (h1 : s ≠ "completed") (h2 : s ∉ nonTerminalStages) :
    renderStages (some s) =
      [⟨"Preprocessing", false, false⟩,
       ⟨"OCR Text Extraction", false, false⟩,
       ⟨"Table Detection", false, false⟩,
       ⟨"Embedding Generation", false, false⟩,
       ⟨"Completed", false, false⟩] := by
  have hidx : jsIndexOf nonTerminalStages s = -1 := by
    unfold jsIndexOf
    rw [findIndex_eq_none_of_not_mem h2]
  have hp : (s == "preprocessing") = false :=
    beq_eq_false_iff_ne.mpr (fun h => h2 (by rw [h]; decide))
  have ho : (s == "ocr_processing") = false :=
    beq_eq_false_iff_ne.mpr (fun h => h2 (by rw [h]; decide))
  have ht : (s == "table_extraction") = false :=
    beq_eq_false_iff_ne.mpr (fun h => h2 (by rw [h]; decide))
  have hg : (s == "embedding_generation") = false :=
    beq_eq_false_iff_ne.mpr (fun h => h2 (by rw [h]; decide))
  have hc : (s == "completed") = false := beq_eq_false_iff_ne.mpr h1
  simp only [renderStages, stageSteps, stageIsActive, stageIsCompleted,
    List.map_cons, List.map_nil, hidx, hp, ho, ht, hg, hc]
  norm_num [jsIndexOf, findIndex]
  decide

/-- C9 witness: the theorem applied at the concrete status `uploaded`. -/
theorem stage_model_other_status_witness :
    renderStages (some "uploaded") =
      [⟨"Preprocessing", false, false⟩,
       ⟨"OCR Text Extraction", false, false⟩,
       ⟨"Table Detection", false, false⟩,
       ⟨"Embedding Generation", false, false⟩,
       ⟨"Completed", false, false⟩] :=
  stage_model_other_status "uploaded" (by decide) (by decide)

theorem pollStatus_ok_head_run {ε ι : Type} (interval : Nat)
    (getStatus : ι → String) (pre : List ι) (rest : List (Except ε ι))
    (hpre : ∀ j ∈ pre, isTerminalStatus (getStatus j) = false) :
    pollStatus interval getStatus (pre.map Except.ok ++ rest) =
      ((pre.map (okBlock interval)).flatten ++
         (pollStatus interval getStatus rest).1,
       (pollStatus interval getStatus rest).2) := by
  induction pre with
  | nil => simp
  | cons j pre ih =>
    have hj : isTerminalStatus (getStatus j) = false :=
      hpre j (List.mem_cons_self j pre)
    have ih' := ih (fun j' hj' => hpre j' (List.mem_cons_of_mem j hj'))
    simp [pollStatus, hj, okBlock, ih']

theorem fetchCount_blocks {ε ι : Type} (interval : Nat) (pre : List ι)
    (tail : List (PollEvent ε ι)) :
    fetchCount ((pre.map (okBlock interval)).flatten ++ tail) =
      pre.length + fetchCount tail := by
  induction pre with
  | nil => simp
  | cons j pre ih =>
    simp [okBlock, fetchCount, List.countP_cons, isFetchEvent] at ih ⊢
    omega

theorem callbackSeq_blocks {ε ι : Type} (interval : Nat) (pre : List ι)
    (tail : List (PollEvent ε ι)) :
    callbackSeq ((pre.map (okBlock interval)).flatten ++ tail) =
      pre ++ callbackSeq tail := by
  induction pre with
  | nil => simp
  | cons j pre ih =>
    simp [okBlock, callbackSeq, List.filterMap_cons] at ih ⊢
    simp [ih]

theorem fetchedOk_blocks {ε ι : Type} (interval : Nat) (pre : List ι)
    (tail : List (PollEvent ε ι)) :
    fetchedOk ((pre.map (okBlock interval)).flatten ++ tail) =
      pre ++ fetchedOk tail := by
  induction pre with
  | nil => simp
  | cons j pre ih =>
    simp [okBlock, fetchedOk, List.filterMap_cons] at ih ⊢
    simp [ih]

theorem waitBeforeLaterFetches_block {ε ι : Type} (interval : Nat)
    (x : Except ε ι) (j : ι) (tr : List (PollEvent ε ι)) :
    waitBeforeLaterFetches interval
        (PollEvent.fetch x :: PollEvent.callback j ::
          PollEvent.wait interval :: tr) =
      waitBeforeLaterFetches interval tr := by
  cases tr with
  | nil => simp [waitBeforeLaterFetches]
  | cons a tr' => cases a <;> simp [waitBeforeLaterFetches]

theorem waitBeforeLaterFetches_trace {ε ι : Type} (interval : Nat)
    (pre : List ι) (x : Except ε ι) (tail : List (PollEvent ε ι)) :
    waitBeforeLaterFetches interval
        ((pre.map (okBlock interval)).flatten ++ PollEvent.fetch x :: tail)
      = waitBeforeLaterFetches interval (PollEvent.fetch x :: tail) := by
  induction pre with
  | nil => simp
  | cons j pre ih =>
    simp only [List.map_cons, List.flatten_cons, okBlock, List.cons_append,
      List.append_assoc]
    cases pre with
    | nil =>
      simp only [List.map_nil, List.flatten_nil, List.nil_append]
      rw [waitBeforeLaterFetches_block]
    | cons j' pre' =>
      simp only [List.map_cons, List.flatten_cons, okBlock,
        List.cons_append] at ih ⊢
      rw [waitBeforeLaterFetches_block]
      exact ih

/-- C2: for a fetched sequence of N successful non-terminal observations
followed by one terminal observation, the poll loop returns the terminal
observation (termination); it performs exactly N+1 fetches; the callback is
invoked exactly once per fetch; every fetch after the first is immediately
preceded by a wait of `interval` milliseconds (never back-to-back); and with
the same N non-terminal observations but no terminal one the loop has not
returned (the loop only exits on a terminal status or a rejection). -/
theorem pollStatus_terminal_run {ε ι : Type} (interval : Nat)
    (getStatus : ι → String) (pre : List ι) (t : ι)
    (hpre : ∀ j ∈ pre, isTerminalStatus (getStatus j) = false)
    (ht : isTerminalStatus (getStatus t) = true) :
    (pollStatus interval getStatus
        (pre.map Except.ok ++ ([Except.ok t] : List (Except ε ι)))).2
      = some (Except.ok t)
    ∧ fetchCount (pollStatus interval getStatus
        (pre.map Except.ok ++ ([Except.ok t] : List (Except ε ι)))).1
      = pre.length + 1
    ∧ (callbackSeq (pollStatus interval getStatus
        (pre.map Except.ok ++ ([Except.ok t] : List (Except ε ι)))).1).length
      = fetchCount (pollStatus interval getStatus
        (pre.map Except.ok ++ ([Except.ok t] : List (Except ε ι)))).1
    ∧ waitBeforeLaterFetches interval (pollStatus interval getStatus
        (pre.map Except.ok ++ ([Except.ok t] : List (Except ε ι)))).1 = true
    ∧ (pollStatus interval getStatus
        (pre.map Except.ok : List (Except ε ι))).2 = none := by
  have hterm : pollStatus interval getStatus
      ([Except.ok t] : List (Except ε ι)) =
      ([PollEvent.fetch (Except.ok t), PollEvent.callback t],
       some (Except.ok t)) := by
    simp [pollStatus, ht]
  have htr := pollStatus_ok_head_run interval getStatus pre
    ([Except.ok t] : List (Except ε ι)) hpre
  rw [hterm] at htr
  have hnone := pollStatus_ok_head_run interval getStatus pre
    ([] : List (Except ε ι)) hpre
  simp [pollStatus] at hnone
  refine ⟨?_, ?_, ?_, ?_, ?_⟩
  · rw [htr]
  · rw [htr]
    rw [fetchCount_blocks]
    simp [fetchCount, List.countP_cons, isFetchEvent]
  · rw [htr]
    rw [callbackSeq_blocks, fetchCount_blocks]
    simp [callbackSeq, fetchCount, List.filterMap_cons, List.countP_cons,
      isFetchEvent]
  · rw [htr]
    rw [waitBeforeLaterFetches_trace]
    simp [waitBeforeLaterFetches]
  · rw [hnone]

/-- C2 witness: a run over two non-terminal observations followed by
`completed`, at the default 2000 ms interval. -/
theorem pollStatus_terminal_run_witness :
    (pollStatus 2000 id
        ((["preprocessing", "ocr_processing"] : List String).map Except.ok ++
          ([Except.ok "completed"] : List (Except Unit String)))).2
      = some (Except.ok "completed")
    ∧ fetchCount (pollStatus 2000 id
        ((["preprocessing", "ocr_processing"] : List String).map Except.ok ++
          ([Except.ok "completed"] : List (Except Unit String)))).1
      = (["preprocessing", "ocr_processing"] : List String).length + 1
    ∧ (callbackSeq (pollStatus 2000 id
        ((["preprocessing", "ocr_processing"] : List String).map Except.ok ++
          ([Except.ok "completed"] : List (Except Unit String)))).1).length
      = fetchCount (pollStatus 2000 id
        ((["preprocessing", "ocr_processing"] : List String).map Except.ok ++
          ([Except.ok "completed"] : List (Except Unit String)))).1
    ∧ waitBeforeLaterFetches 2000 (pollStatus 2000 id
        ((["preprocessing", "ocr_processing"] : List String).map Except.ok ++
          ([Except.ok "completed"] : List (Except Unit String)))).1 = true
    ∧ (pollStatus 2000 id
        ((["preprocessing", "ocr_processing"] : List String).map Except.ok :
          List (Except Unit String))).2 = none :=
  pollStatus_terminal_run 2000 id ["preprocessing", "ocr_processing"]
    "completed" (by decide) (by decide)

/-- C3: when the (N+1)-st fetch rejects after N successful non-terminal
observations, the loop stops at that fetch: the callback sequence is exactly
the N earlier jobs (nothing is delivered for the failed fetch), exactly N+1
fetches occurred, the run is identical whatever outcomes would have followed
(no further fetch, no retry), and the operation rejects with the very error
the failed fetch produced, unchanged. -/
theorem pollStatus_error_run {ε ι : Type} (interval : Nat)
    (getStatus : ι → String) (pre : List ι) (e : ε)
    (rest : List (Except ε ι))
    (hpre : ∀ j ∈ pre, isTerminalStatus (getStatus j) = false) :
    (pollStatus interval getStatus
        (pre.map Except.ok ++ Except.error e :: rest)).2
      = some (Except.error e)
    ∧ callbackSeq (pollStatus interval getStatus
        (pre.map Except.ok ++ Except.error e :: rest)).1 = pre
    ∧ fetchCount (pollStatus interval getStatus
        (pre.map Except.ok ++ Except.error e :: rest)).1 = pre.length + 1
    ∧ pollStatus interval getStatus
        (pre.map Except.ok ++ Except.error e :: rest)
      = pollStatus interval getStatus
          (pre.map Except.ok ++ [Except.error e]) := by
  have herr : ∀ rs : List (Except ε ι),
      pollStatus interval getStatus (Except.error e :: rs) =
        ([PollEvent.fetch (Except.error e)], some (Except.error e)) :=
    fun _ => rfl
  have h1 := pollStatus_ok_head_run interval getStatus pre
    (Except.error e :: rest) hpre
  rw [herr rest] at h1
  have h2 := pollStatus_ok_head_run interval getStatus pre
    [Except.error e] hpre
  rw [herr []] at h2
  refine ⟨?_, ?_, ?_, ?_⟩
  · rw [h1]
  · rw [h1]
    rw [callbackSeq_blocks]
    simp [callbackSeq, List.filterMap_cons]
  · rw [h1]
    rw [fetchCount_blocks]
    simp [fetchCount, List.countP_cons, isFetchEvent]
  · rw [h1, h2]

/-- C3 witness: one non-terminal observation, then a rejected fetch carrying
the error string `ECONNRESET`; outcomes after the failure are never
consumed. -/
theorem pollStatus_error_run_witness :
    (pollStatus 2000 id
        ((["preprocessing"] : List String).map Except.ok ++
          Except.error "ECONNRESET" :: [Except.ok "completed"])).2
      = some (Except.error "ECONNRESET")
    ∧ callbackSeq (pollStatus 2000 id
        ((["preprocessing"] : List String).map Except.ok ++
          Except.error "ECONNRESET" :: [Except.ok "completed"])).1
      = ["preprocessing"]
    ∧ fetchCount (pollStatus 2000 id
        ((["preprocessing"] : List String).map Except.ok ++
          Except.error "ECONNRESET" :: [Except.ok "completed"])).1
      = (["preprocessing"] : List String).length + 1
    ∧ pollStatus 2000 id
        ((["preprocessing"] : List String).map Except.ok ++
          Except.error "ECONNRESET" :: [Except.ok "completed"])
      = pollStatus 2000 id
          ((["preprocessing"] : List String).map Except.ok ++
            [Except.error "ECONNRESET"]) :=
  pollStatus_error_run 2000 id ["preprocessing"] "ECONNRESET"
    [Except.ok "completed"] (by decide)

/-- C4: on a successfully terminating run, the callback receives exactly the
successfully fetched observations in fetch order (no reordering), the
terminal observation is delivered as the last callback, and the resolved
value is the last observation delivered to the callback. -/
theorem pollStatus_delivery_order {ε ι : Type} (interval : Nat)
    (getStatus : ι → String) (pre : List ι) (t : ι)
    (hpre : ∀ j ∈ pre, isTerminalStatus (getStatus j) = false)
    (ht : isTerminalStatus (getStatus t) = true) :
    callbackSeq (pollStatus interval getStatus
        (pre.map Except.ok ++ ([Except.ok t] : List (Except ε ι)))).1
      = fetchedOk (pollStatus interval getStatus
        (pre.map Except.ok ++ ([Except.ok t] : List (Except ε ι)))).1
    ∧ callbackSeq (pollStatus interval getStatus
        (pre.map Except.ok ++ ([Except.ok t] : List (Except ε ι)))).1
      = pre ++ [t]
    ∧ (pollStatus interval getStatus
        (pre.map Except.ok ++ ([Except.ok t] : List (Except ε ι)))).2
      = (callbackSeq (pollStatus interval getStatus
          (pre.map Except.ok ++
            ([Except.ok t] : List (Except ε ι)))).1).getLast?.map
          Except.ok := by
  have hterm : pollStatus interval getStatus
      ([Except.ok t] : List (Except ε ι)) =
      ([PollEvent.fetch (Except.ok t), PollEvent.callback t],
       some (Except.ok t)) := by
    simp [pollStatus, ht]
  have htr := pollStatus_ok_head_run interval getStatus pre
    ([Except.ok t] : List (Except ε ι)) hpre
  rw [hterm] at htr
  refine ⟨?_, ?_, ?_⟩
  · rw [htr]
    rw [callbackSeq_blocks, fetchedOk_blocks]
    simp [callbackSeq, fetchedOk, List.filterMap_cons]
  · rw [htr]
    rw [callbackSeq_blocks]
    simp [callbackSeq, List.filterMap_cons]
  · rw [htr]
    rw [callbackSeq_blocks]
    simp [callbackSeq, List.filterMap_cons, List.getLast?_concat]

/-- C4 witness: one non-terminal observation followed by the terminal
`failed` observation. -/
theorem pollStatus_delivery_order_witness :
    callbackSeq (pollStatus 2000 id
        ((["ocr_processing"] : List String).map Except.ok ++
          ([Except.ok "failed"] : List (Except Unit String)))).1
      = fetchedOk (pollStatus 2000 id
        ((["ocr_processing"] : List String).map Except.ok ++
          ([Except.ok "failed"] : List (Except Unit String)))).1
    ∧ callbackSeq (pollStatus 2000 id
        ((["ocr_processing"] : List String).map Except.ok ++
          ([Except.ok "failed"] : List (Except Unit String)))).1
      = ["ocr_processing"] ++ ["failed"]
    ∧ (pollStatus 2000 id
        ((["ocr_processing"] : List String).map Except.ok ++
          ([Except.ok "failed"] : List (Except Unit String)))).2
      = (callbackSeq (pollStatus 2000 id
          ((["ocr_processing"] : List String).map Except.ok ++
            ([Except.ok "failed"] : List (Except Unit String)))).1).getLast?.map
          Except.ok :=
  pollStatus_delivery_order 2000 id ["ocr_processing"] "failed"
    (by decide) (by decide)

theorem percentCompleted_pos_total (l total : Nat) (hpos : 0 < total) :
    percentCompleted l total =
      JSNum.num ((round ((l : ℚ) * 100 / (total : ℚ)) : ℤ) : ℚ) := by
  have htz : ((total : ℚ)) ≠ 0 := by exact_mod_cast hpos.ne'
  simp only [percentCompleted, jsDivNonneg, if_neg htz, jsMathRound, round_eq]

theorem roundPercent_nonneg (l total : Nat) :
    0 ≤ round ((l : ℚ) * 100 / (total : ℚ)) := by
  rw [round_eq]
  refine Int.floor_nonneg.mpr ?_
  have h : (0 : ℚ) ≤ (l : ℚ) * 100 / (total : ℚ) := by positivity
  linarith

theorem roundPercent_le_100 (l total : Nat) (hle : l ≤ total)
    (hpos : 0 < total) :
    round ((l : ℚ) * 100 / (total : ℚ)) ≤ 100 := by
  rw [round_eq, Int.floor_le_iff]
  have htq : (0 : ℚ) < (total : ℚ) := by exact_mod_cast hpos
  have hq : (l : ℚ) * 100 / (total : ℚ) ≤ 100 := by
    rw [div_le_iff₀ htq]
    have hc : (l : ℚ) ≤ (total : ℚ) := by exact_mod_cast hle
    nlinarith
  push_cast
  linarith

theorem roundPercent_mono (a b total : Nat) (hpos : 0 < total)
    (hab : a ≤ b) :
    round ((a : ℚ) * 100 / (total : ℚ)) ≤
      round ((b : ℚ) * 100 / (total : ℚ)) := by
  have htq : (0 : ℚ) < (total : ℚ) := by exact_mod_cast hpos
  have hd : (a : ℚ) * 100 / (total : ℚ) ≤ (b : ℚ) * 100 / (total : ℚ) := by
    have hc : (a : ℚ) ≤ (b : ℚ) := by exact_mod_cast hab
    gcongr
  rw [round_eq, round_eq]
  exact Int.floor_le_floor (by linarith)

/-- C6: on a transport tick with positive `total` and `loaded ≤ total`, the
progress handler passes exactly the integer `round(loaded * 100 / total)` to
the callback, and that integer lies in [0, 100]. -/
theorem percentCompleted_round_in_range (loaded total : Nat)
    (hpos : 0 < total) (hle : loaded ≤ total) :
    percentCompleted loaded total =
      JSNum.num ((round ((loaded : ℚ) * 100 / (total : ℚ)) : ℤ) : ℚ)
    ∧ 0 ≤ round ((loaded : ℚ) * 100 / (total : ℚ))
    ∧ round ((loaded : ℚ) * 100 / (total : ℚ)) ≤ 100 :=
  ⟨percentCompleted_pos_total loaded total hpos,
   roundPercent_nonneg loaded total,
   roundPercent_le_100 loaded total hle hpos⟩

/-- C6 witness: the tick `loaded = 1`, `total = 3`. -/
theorem percentCompleted_round_in_range_witness :
    percentCompleted 1 3 =
      JSNum.num ((round (((1 : Nat) : ℚ) * 100 / ((3 : Nat) : ℚ)) : ℤ) : ℚ)
    ∧ 0 ≤ round (((1 : Nat) : ℚ) * 100 / ((3 : Nat) : ℚ))
    ∧ round (((1 : Nat) : ℚ) * 100 / ((3 : Nat) : ℚ)) ≤ 100 :=
  percentCompleted_round_in_range 1 3 (by decide) (by decide)

/-- C10: the percent computation divides by `progressEvent.total` with no
guard: the tick `loaded = 0, total = 0` passes NaN (not a finite integer) to
the callback, and in general the handler's value is a finite number (the
rounding always makes it an integer) precisely when `total` is positive. -/
theorem percentCompleted_unguarded :
    percentCompleted 0 0 = JSNum.nan
    ∧ ∀ loaded total : Nat,
        (∃ k : ℤ, percentCompleted loaded total = JSNum.num (k : ℚ)) ↔
          0 < total := by
  refine ⟨by norm_num [percentCompleted, jsDivNonneg, jsMathRound], ?_⟩
  intro loaded total
  constructor
  · rintro ⟨k, hk⟩
    rcases Nat.eq_zero_or_pos total with h0 | hpos
    · exfalso
      subst h0
      rcases Nat.eq_zero_or_pos loaded with hl | hl
      · subst hl
        simp [percentCompleted, jsDivNonneg, jsMathRound] at hk
      · have hml : ((loaded : ℚ) * 100) ≠ 0 := by
          have hlq : (0 : ℚ) < (loaded : ℚ) := by exact_mod_cast hl
          positivity
        simp [percentCompleted, jsDivNonneg, jsMathRound, hml] at hk
    · exact hpos
  · intro hpos
    exact ⟨round ((loaded : ℚ) * 100 / (total : ℚ)),
      percentCompleted_pos_total loaded total hpos⟩

/-- C5: during a successful transfer with a fixed positive `total` and
non-decreasing `loaded` values bounded by `total`, the values handed to the
progress consumer are exactly the integer sequence
`0, round(loaded·100/total) per tick, 100` (the final 100 forced by the
caller only after the promise resolves); that integer sequence is
non-decreasing and the last observed value is 100. -/
theorem upload_progress_monotone (total : Nat) (loadeds : List Nat)
    (hpos : 0 < total) (hchain : List.Chain' (· ≤ ·) loadeds)
    (hbound : ∀ l ∈ loadeds, l ≤ total) :
    progressValues (loadeds.map fun l => (l, total)) =
      ((0 : ℤ) :: (loadeds.map fun l : Nat =>
          round ((l : ℚ) * 100 / (total : ℚ))) ++ [(100 : ℤ)]).map
        (fun k : ℤ => JSNum.num (k : ℚ))
    ∧ List.Chain' (· ≤ ·)
        ((0 : ℤ) :: (loadeds.map fun l : Nat =>
          round ((l : ℚ) * 100 / (total : ℚ))) ++ [(100 : ℤ)])
    ∧ (progressValues (loadeds.map fun l => (l, total))).getLast?
        = some (JSNum.num 100) := by
  have hmap : (loadeds.map fun l => (l, total)).map
      (fun p => UploadService.percentCompleted p.1 p.2) =
      loadeds.map fun l : Nat =>
        JSNum.num ((round ((l : ℚ) * 100 / (total : ℚ)) : ℤ) : ℚ) := by
    rw [List.map_map]
    refine List.map_congr_left fun l _ => ?_
    exact percentCompleted_pos_total l total hpos
  have h1 : progressValues (loadeds.map fun l => (l, total)) =
      JSNum.num 0 ::
        (loadeds.map fun l : Nat =>
          JSNum.num ((round ((l : ℚ) * 100 / (total : ℚ)) : ℤ) : ℚ)) ++
        [JSNum.num 100] := by
    unfold progressValues
    rw [hmap]
  refine ⟨?_, ?_, ?_⟩
  · rw [h1]
    simp [List.map_map]
  · rw [List.chain'_append]
    refine ⟨?_, by simp, ?_⟩
    · rw [List.chain'_cons']
      constructor
      · intro y hy
        cases loadeds with
        | nil => simp at hy
        | cons a tl =>
          simp only [List.map_cons, List.head?_cons, Option.mem_def,
            Option.some.injEq] at hy
          subst hy
          exact roundPercent_nonneg a total
      · exact List.chain'_map_of_chain' _
          (fun a b hab => roundPercent_mono a b total hpos hab) hchain
    · intro x hx y hy
      simp at hy
      subst hy
      have hx' := List.mem_of_mem_getLast? hx
      rcases List.mem_cons.mp hx' with h0 | hmem
      · subst h0
        norm_num
      · rcases List.mem_map.mp hmem with ⟨b, hb, rfl⟩
        exact roundPercent_le_100 b total (hbound b hb) hpos
  · rw [h1, List.getLast?_concat]

/-- C5 witness: `total = 4` bytes with ticks at `loaded = 1` and
`loaded = 3`. -/
theorem upload_progress_monotone_witness :
    progressValues (([1, 3] : List Nat).map fun l => (l, 4)) =
      ((0 : ℤ) :: (([1, 3] : List Nat).map fun l : Nat =>
          round ((l : ℚ) * 100 / ((4 : Nat) : ℚ))) ++ [(100 : ℤ)]).map
        (fun k : ℤ => JSNum.num (k : ℚ))
    ∧ List.Chain' (· ≤ ·)
        ((0 : ℤ) :: (([1, 3] : List Nat).map fun l : Nat =>
          round ((l : ℚ) * 100 / ((4 : Nat) : ℚ))) ++ [(100 : ℤ)])
    ∧ (progressValues (([1, 3] : List Nat).map fun l => (l, 4))).getLast?
        = some (JSNum.num 100) :=
  upload_progress_monotone 4 [1, 3] (by decide) (by simp) (by decide)

/-- C8: with no document-id restriction, `queryDocuments` issues exactly one
POST, to `/query/`, whose body carries the query string unchanged,
`document_ids = null` and `top_k` equal to the supplied hint, and it resolves
with the transport response's `data` unmodified. -/
theorem queryDocuments_no_filter {α : Type}
    (post : QueryRequest → HttpResponse α) (q : String) (topK : Nat) :
    (queryDocuments post q none topK).1 =
      [QueryRequest.mk "/query/" q none topK]
    ∧ (queryDocuments post q none topK).2 =
      (post (QueryRequest.mk "/query/" q none topK)).data :=
  ⟨rfl, rfl⟩
